import Mathlib

/-!
Verification of pg-boss (src/manager.js, src/migrationStore.js): a shallow
embedding of the manager's job-dispatch, send/throttle/debounce, fetch, worker
registry and completion-data mapping, and of the migration store, with theorems
settling the spec's claims about them.

Conventions of the embedding:
* JavaScript values flowing through `complete` are modelled by `JsValue`
  (no floats or prototype chains: integers, strings, booleans, arrays,
  plain objects, `null`, `undefined` and opaque function values).
* Asynchronous DB calls are modelled by passing their outcomes in as data
  (`Except String …` for a call that can throw, `Option String` for an insert
  that returns one row or zero rows).
* Wall-clock instants (`Date.now()`) and the timekeeper's clock skew are
  explicit integer parameters (milliseconds).
-/

namespace PgBoss

/-- JavaScript values as they reach the manager's completion-data mapping:
`null`, `undefined`, functions (opaque), booleans, integers, strings, arrays
and plain objects. -/
inductive JsValue where
  | null : JsValue
  | undef : JsValue
  | func : JsValue
  | bool (b : Bool) : JsValue
  | num (n : Int) : JsValue
  | str (s : String) : JsValue
  | arr (elems : List JsValue) : JsValue
  | obj (fields : List (String × JsValue)) : JsValue

/-- JavaScript `typeof` on the modelled values (`typeof null` is "object"). -/
def jsTypeof : JsValue → String
  | .null => "object"
  | .undef => "undefined"
  | .func => "function"
  | .bool _ => "boolean"
  | .num _ => "number"
  | .str _ => "string"
  | .arr _ => "object"
  | .obj _ => "object"

/-- JavaScript `Array.isArray`. -/
def jsIsArray : JsValue → Bool
  | .arr _ => true
  | _ => false

/-- JavaScript strict equality against `null` (`data === null`). -/
def jsIsNull : JsValue → Bool
  | .null => true
  | _ => false

/-- Modelled from the spec: the `serialize-error` package's `serializeError`
(aliased `stringify` in manager.js), whose code is not part of this
repository. The spec says errors "are serialized to a plain object (message,
stack, name, cause chain)"; this model carries no Error objects, and on plain
JSON data the serialization is the identity. -/
def stringify (v : JsValue) : JsValue := v

/-- manager.js `mapCompletionDataArg(data)`: null/undefined/function become
null; a non-array object is serialized as is; everything else is wrapped as
an object with a single `value` field. -/
def mapCompletionDataArg (data : JsValue) : JsValue :=
  if jsIsNull data || jsTypeof data == "undefined" || jsTypeof data == "function" then
    JsValue.null
  else if jsTypeof data == "object" && !jsIsArray data then
    stringify data
  else
    stringify (JsValue.obj [("value", data)])

/-- Follows the spec's words, for comparison with the code: the output stored
by `complete` maps null, undefined and callables to null, passes a non-array
object through unchanged, and wraps an array or any other value v as an
object with a single field `value` holding v. -/
def completionOutputSpec : JsValue → JsValue
  | .null => .null
  | .undef => .null
  | .func => .null
  | .obj fields => .obj fields
  | other => .obj [("value", other)]

/-! ## Worker runtime: onFetch and the handler/timer race (manager.js) -/

/-- A fetched job row as the worker dispatch path reads it: its id and its
`expireInSeconds` (the queue's handler deadline for this job). -/
structure Job where
  id : String
  expireInSeconds : Nat
deriving Repr, DecidableEq

/-- One run of the user handler on a batch: how many milliseconds it takes to
settle, and whether it returns a value or throws/rejects with an error. -/
structure HandlerRun where
  duration : Nat
  outcome : Except String JsValue

/-- The report the worker makes to the DB for a batch: `complete(name, ids,
data)` with the data argument, or `fail(name, ids, err)`. -/
inductive Action where
  | complete (ids : List String) (data : Option JsValue)
  | fail (ids : List String) (error : String)

/-- manager.js `resolveWithinSeconds(promise, seconds)`: a timeout of
`Math.max(1, seconds) * 1000` milliseconds races the handler. If the timer
settles first the result is a rejection with "handler execution exceeded
Nms" (N the timeout in ms); otherwise the handler's own outcome stands.
The timer promise is `delay(timeout, message)` from tools.js (not part of
src/), modelled from the spec as a rejection arriving after `timeout` ms; a
tie at the exact same millisecond is resolved in favor of the handler (the
real event-loop order at an exact tie is scheduler-dependent). -/
def resolveWithinSeconds (run : HandlerRun) (seconds : Nat) : Except String JsValue :=
  let timeout := (max 1 seconds) * 1000
  if timeout < run.duration then
    .error ("handler execution exceeded " ++ toString timeout ++ "ms")
  else
    run.outcome

/-- The batch deadline of manager.js `onFetch`:
`jobs.reduce((acc, i) => Math.max(acc, i.expireInSeconds), 0)`. -/
def maxExpiration (jobs : List Job) : Nat :=
  jobs.foldl (fun acc i => max acc i.expireInSeconds) 0

/-- manager.js `onFetch(jobs)` inside `watch`: an empty batch does nothing;
with the test hook `__test__throw_worker` set it throws; otherwise it runs
the handler under `resolveWithinSeconds` with the batch's `maxExpiration`
and reports `complete` (the handler result as data only for a singleton
batch) or `fail` (the error, a timeout message included). The wip events it
emits carry no job data and are not modelled. -/
def onFetch (jobs : List Job) (run : HandlerRun) (testThrowWorker : Bool) :
    Except String (Option Action) :=
  if jobs.length = 0 then
    .ok none
  else if testThrowWorker then
    .error "__test__throw_worker"
  else
    let jobIds := jobs.map (·.id)
    .ok (some (match resolveWithinSeconds run (maxExpiration jobs) with
      | .ok result => .complete jobIds (if jobIds.length = 1 then some result else none)
      | .error err => .fail jobIds err))

/-! ## Queue-metadata cache, fetch (manager.js) -/

/-- The environment one manager call sees for one queue name: the cached
entry `this.queues[name]` (the queue's partition table name, the only field
these code paths read), and the outcome of the `getQueue(name)` DB call a
cache miss makes (`.ok none` = no row, the queue does not exist; `.error` =
the DB call threw). -/
structure QueueEnv where
  cached : Option String
  dbGetQueue : Except String (Option String)

/-- manager.js `getQueueCache(name)`: return the cached queue if present;
otherwise call `getQueue(name)` (manager.js: `rows[0] || null`), throw
"Queue ... does not exist" when it returns null, cache and return it
otherwise. A DB error thrown by `getQueue` propagates. -/
def getQueueCache (name : String) (env : QueueEnv) : Except String String :=
  match env.cached with
  | some table => .ok table
  | none =>
    match env.dbGetQueue with
    | .error e => .error e
    | .ok (some table) => .ok table
    | .ok none => .error ("Queue " ++ name ++ " does not exist")

/-- manager.js `fetch(name, options)`: resolve the queue through
`getQueueCache` (errors here propagate), then run the fetch query; a throw
from that query is swallowed (`catch` with a comment) and
`result?.rows || []` yields the empty batch. `Attorney.checkFetchArgs`
(argument validation, not part of src/) is not modelled; `dbFetch` is the
outcome of the fetch query's `db.executeSql(sql)`. -/
def fetch (name : String) (env : QueueEnv) (dbFetch : Except String (List Job)) :
    Except String (List Job) :=
  match getQueueCache name env with
  | .error e => .error e
  | .ok _table =>
    match dbFetch with
    | .ok rows => .ok rows
    | .error _ => .ok []

/-! ## createJob and the send variants (manager.js) -/

/-- The send options `createJob` destructures (manager.js lines 343-361),
with the JS `undefined` of an absent option modelled as `none`.
`singletonSeconds` is set by `sendThrottled`/`sendDebounced`; the retry
branch of `createJob` reads it with `getD 0` standing in for the JS
arithmetic on `undefined`, which that branch never meets in the repository
(only `sendDebounced` sets `singletonNextSlot`, and it always sets
`singletonSeconds` with it). -/
structure JobOptions where
  id : Option String := none
  priority : Option Int := none
  startAfter : Option Int := none
  singletonKey : Option String := none
  singletonSeconds : Option Int := none
  singletonNextSlot : Bool := false
  expireIn : Option Int := none
  expireInDefault : Option Int := none
  keepUntil : Option String := none
  keepUntilDefault : Option String := none
  retryLimit : Option Int := none
  retryLimitDefault : Option Int := none
  retryDelay : Option Int := none
  retryDelayDefault : Option Int := none
  retryBackoff : Option Bool := none
  retryBackoffDefault : Option Bool := none

/-- One execution of `plans.insertJob`'s SQL: the partition table it runs
against and the eighteen positional values manager.js `createJob` passes
(lines 363-382). -/
structure InsertCall where
  table : String
  id : Option String
  name : String
  data : JsValue
  priority : Option Int
  startAfter : Option Int
  singletonKey : Option String
  singletonSeconds : Option Int
  singletonOffset : Int
  expireIn : Option Int
  expireInDefault : Option Int
  keepUntil : Option String
  keepUntilDefault : Option String
  retryLimit : Option Int
  retryLimitDefault : Option Int
  retryDelay : Option Int
  retryDelayDefault : Option Int
  retryBackoff : Option Bool
  retryBackoffDefault : Option Bool

/-- The insert call `createJob` makes from its destructured options and the
`singletonOffset` argument. -/
def mkInsertCall (table name : String) (data : JsValue) (options : JobOptions)
    (singletonOffset : Int) : InsertCall :=
  { table := table
    id := options.id
    name := name
    data := data
    priority := options.priority
    startAfter := options.startAfter
    singletonKey := options.singletonKey
    singletonSeconds := options.singletonSeconds
    singletonOffset := singletonOffset
    expireIn := options.expireIn
    expireInDefault := options.expireInDefault
    keepUntil := options.keepUntil
    keepUntilDefault := options.keepUntilDefault
    retryLimit := options.retryLimit
    retryLimitDefault := options.retryLimitDefault
    retryDelay := options.retryDelay
    retryDelayDefault := options.retryDelayDefault
    retryBackoff := options.retryBackoff
    retryBackoffDefault := options.retryBackoffDefault }

/-- manager.js `getDebounceStartAfter(singletonSeconds, clockOffset)`.
`Date.now()` is the explicit parameter `now`; `Math.floor` on a division of
integers is `Int.fdiv`; the JS `|| 1` (which replaces a falsy 0) is the
zero test. All quantities are milliseconds except the returned seconds. -/
def getDebounceStartAfter (singletonSeconds clockOffset now : Int) : Int :=
  let debounceInterval := singletonSeconds * 1000
  let now := now + clockOffset
  let slot := (Int.fdiv now debounceInterval) * debounceInterval
  let startAfter0 := singletonSeconds - Int.fdiv (now - slot) 1000
  let startAfter := if startAfter0 = 0 then 1 else startAfter0
  if singletonSeconds > 1 then startAfter + 1 else startAfter

/-- Follows the spec's words, for comparison with the code: the number of
seconds remaining from the clock-skew-adjusted now until the start of the
next time bucket of width `seconds` seconds, rounded up to whole seconds
(integer ceiling). -/
def specSecondsUntilNextBucket (seconds clockOffset now : Int) : Int :=
  let adjusted := now + clockOffset
  let bucket := seconds * 1000
  let nextBoundary := (Int.fdiv adjusted bucket + 1) * bucket
  Int.fdiv (nextBoundary - adjusted + 999) 1000

/-- manager.js `createJob(name, data, options, singletonOffset = 0)`: resolve
the queue's partition table, run `plans.insertJob` with the eighteen values;
one returned row yields its id; zero rows yield null unless
`options.singletonNextSlot` is set, in which case the options get
`startAfter = getDebounceStartAfter(...)` and `singletonNextSlot = false`
and the call recurses once with `singletonOffset = singletonSeconds`.
`db` lists the outcomes of the successive insert calls (`some id` = one row,
`none` = zero rows, a unique-index collision absorbed by the SQL); the
result collects the insert calls made and the returned id or null. The
`db = []` case (no response modelled for an attempt) returns null without a
call and is never exercised. -/
def createJob (name : String) (data : JsValue) (options : JobOptions)
    (singletonOffset : Int) (env : QueueEnv) (db : List (Option String))
    (now clockSkew : Int) : Except String (List InsertCall × Option String) :=
  match db with
  | [] => .ok ([], none)
  | r :: rest =>
    match getQueueCache name env with
    | .error e => .error e
    | .ok table =>
      let call := mkInsertCall table name data options singletonOffset
      match r with
      | some jobId => .ok ([call], some jobId)
      | none =>
        if !options.singletonNextSlot then
          .ok ([call], none)
        else
          let startAfter :=
            getDebounceStartAfter (options.singletonSeconds.getD 0) clockSkew now
          let options' := { options with
            startAfter := some startAfter
            singletonNextSlot := false }
          match createJob name data options' (options.singletonSeconds.getD 0) env
              rest now clockSkew with
          | .error e => .error e
          | .ok (calls, res) => .ok (call :: calls, res)

/-- The manager's own state these paths consult: only the `stopped` flag set
by `stop()` and cleared by `start()`. -/
structure ManagerState where
  stopped : Bool

/-- manager.js `send(...args)`: `Attorney.checkSendArgs` (not part of src/)
validates and normalizes the arguments and is modelled as the identity on
valid ones; the call then goes straight to `createJob`. It takes the manager
state to record that, unlike `watch`, the send path never consults
`stopped`. -/
def send (_st : ManagerState) (name : String) (data : JsValue) (options : JobOptions)
    (env : QueueEnv) (db : List (Option String)) (now clockSkew : Int) :
    Except String (List InsertCall × Option String) :=
  createJob name data options 0 env db now clockSkew

/-- manager.js `sendThrottled(name, data, options, seconds, key)`: sets
`singletonSeconds = seconds`, `singletonNextSlot = false`,
`singletonKey = key` on a copy of the options and calls `createJob`. -/
def sendThrottled (name : String) (data : JsValue) (options : JobOptions)
    (seconds : Int) (key : Option String) (env : QueueEnv)
    (db : List (Option String)) (now clockSkew : Int) :
    Except String (List InsertCall × Option String) :=
  let options := { options with
    singletonSeconds := some seconds
    singletonNextSlot := false
    singletonKey := key }
  createJob name data options 0 env db now clockSkew

/-- manager.js `sendDebounced(name, data, options, seconds, key)`: sets
`singletonSeconds = seconds`, `singletonNextSlot = true`,
`singletonKey = key` on a copy of the options and calls `createJob`. -/
def sendDebounced (name : String) (data : JsValue) (options : JobOptions)
    (seconds : Int) (key : Option String) (env : QueueEnv)
    (db : List (Option String)) (now clockSkew : Int) :
    Except String (List InsertCall × Option String) :=
  let options := { options with
    singletonSeconds := some seconds
    singletonNextSlot := true
    singletonKey := key }
  createJob name data options 0 env db now clockSkew

/-! ## Worker registry: watch, notifyWorker (manager.js) -/

/-- A registered worker as the registry paths see it: its id, queue name and
a wake counter standing for the effect of `worker.notify()` (which wakes the
polling loop early). -/
structure Worker where
  id : String
  name : String
  notifyCount : Nat := 0
deriving Repr, DecidableEq

/-- The effect of `worker.notify()`. -/
def Worker.notify (w : Worker) : Worker :=
  { w with notifyCount := w.notifyCount + 1 }

/-- The manager's worker registry `this.workers`, a `Map` keyed by worker id
modelled as an insertion-ordered association list with unique keys. -/
abbrev Registry := List (String × Worker)

/-- Membership test `this.workers.has(workerId)`. -/
def workersHas (workers : Registry) (workerId : String) : Bool :=
  (List.find? (fun p => p.1 == workerId) workers).isSome

/-- The update `this.workers.get(workerId).notify()` as a registry map: the entry
under `workerId` (unique in a `Map`) is replaced by its notified self. -/
def workersNotify (workers : Registry) (workerId : String) : Registry :=
  List.map (fun p => if p.1 == workerId then (p.1, Worker.notify p.2) else p) workers

/-- manager.js `notifyWorker(workerId)`: when the registry has the id, notify
that worker; otherwise do nothing. -/
def notifyWorker (workers : Registry) (workerId : String) : Registry :=
  if workersHas workers workerId then workersNotify workers workerId else workers

/-- Insertion `this.workers.set(worker.id, worker)` (manager.js `addWorker`). -/
def workersSet (workers : Registry) (workerId : String) (w : Worker) : Registry :=
  if workersHas workers workerId then
    List.map (fun p => if p.1 == workerId then (workerId, w) else p) workers
  else
    workers ++ [(workerId, w)]

/-- manager.js `watch(name, options, callback)`: throws "Workers are
disabled. pg-boss is stopped" when the manager is stopped; otherwise
registers a new worker under a fresh UUID (the generated id is the explicit
parameter `id`) and returns the id. The worker's polling loop itself is not
modelled here; `onFetch` above is its dispatch step. -/
def watch (st : ManagerState) (workers : Registry) (name id : String) :
    Except String (String × Registry) :=
  if st.stopped then
    .error "Workers are disabled. pg-boss is stopped"
  else
    .ok (id, workersSet workers id { id := id, name := name })

/-- manager.js `work(name, ...args)`: `Attorney.checkWorkArgs` (not part of
src/) validates the arguments, then the call is `watch`. -/
def work (st : ManagerState) (workers : Registry) (name id : String) :
    Except String (String × Registry) :=
  watch st workers name id

/-! ## Migration store (migrationStore.js) -/

namespace MigrationStore

/-- A statement of a migration plan. Plain SQL from a migration's arrays is
`sql`. The two wrapper statements come from plans.js, which is not part of
src/: modelled from the spec, `assertVersion schema v` is
`plans.assertMigration(schema, v)`, the assertion about the stored schema
version that guards the plan and references version `v`, and
`setVersion schema v` is `plans.setVersion(schema, v)`, the statement
setting the stored version to `v`. -/
inductive Stmt where
  | sql (text : String)
  | assertVersion (schema : String) (version : Int)
  | setVersion (schema : String) (version : Int)
deriving Repr, DecidableEq

/-- Modelled from the spec: the value of `plans.locked(schema, commands)`
(plans.js is not part of src/), "the whole sequence executed under a
session-level advisory lock derived from the schema name": the plan records
the schema the lock is derived from and the ordered statements it wraps. -/
structure Plan where
  schema : String
  statements : List Stmt
deriving Repr, DecidableEq

/-- migrationStore.js `flatten(schema, commands, version)`: unshift
`plans.assertMigration(schema, version)`, push
`plans.setVersion(schema, version)`, wrap with `plans.locked`. -/
def flatten (schema : String) (commands : List String) (version : Int) : Plan :=
  { schema := schema
    statements := Stmt.assertVersion schema version
      :: commands.map Stmt.sql ++ [Stmt.setVersion schema version] }

/-- An element expression of a migration's `install`/`uninstall` array
literals, as JavaScript parses it: a template-literal string, or a tagged
template (a template literal applied, as a tag function, to another — what
two adjacent template literals with no separating comma parse as). -/
inductive JsExpr where
  | lit (s : String)
  | taggedTemplate (tag : JsExpr) (template : String)
deriving Repr, DecidableEq

/-- JavaScript evaluation of one array element: a template literal yields its
string; a tagged template first evaluates its tag, then throws a TypeError,
because the tag (a string) is not callable. -/
def evalJsExpr : JsExpr → Except String String
  | .lit s => .ok s
  | .taggedTemplate tag _template =>
    match evalJsExpr tag with
    | .error e => .error e
    | .ok s => .error ("TypeError: \"" ++ s ++ "\" is not a function")

/-- One migration entry of `getAll` as parsed: the `install`/`uninstall`
arrays hold unevaluated element expressions. -/
structure RawMigration where
  release : String
  version : Int
  previous : Int
  install : List JsExpr
  uninstall : List JsExpr

/-- One migration entry as the store's operations consume it, every array
element evaluated to a SQL string. -/
structure Migration where
  release : String
  version : Int
  previous : Int
  install : List String
  uninstall : List String
deriving Repr, DecidableEq

/-- migrationStore.js `getAll(schema)`, the array literal as parsed: three
migrations (versions 21, 20, 19). In version 21's `install`, the
`CREATE INDEX job_name` template literal (line 136) has no comma after it,
so together with the `CREATE UNIQUE INDEX job_policy_short` literal on the
next line it parses as one tagged-template element. -/
def getAllRaw (schema : String) : List RawMigration :=
  [ { release := "10.0.0"
      version := 21
      previous := 20
      install := [
        .lit s!"DROP INDEX {schema}.job_singletonKey",
        .lit s!"DROP INDEX {schema}.job_singleton_queue",
        .lit s!"DROP INDEX {schema}.job_singletonOn",
        .lit s!"DROP INDEX {schema}.job_singletonKeyOn",
        .lit s!"DROP INDEX {schema}.job_fetch",
        .lit s!"ALTER TABLE {schema}.job ADD COLUMN deadletter text",
        .lit s!"ALTER TABLE {schema}.job ADD COLUMN policy text",
        .lit s!"ALTER TABLE {schema}.job DROP COLUMN on_complete",
        .lit s!"ALTER TABLE {schema}.job ALTER COLUMN state TYPE text",
        .lit s!"ALTER TABLE {schema}.job ALTER COLUMN state DROP DEFAULT",
        .lit s!"ALTER TABLE {schema}.archive ALTER COLUMN state TYPE text",
        .lit s!"DROP TABLE IF EXISTS {schema}.archive_backup",
        .lit s!"ALTER TABLE {schema}.archive RENAME to archive_backup",
        .lit s!"ALTER INDEX {schema}.archive_archivedon_idx RENAME to archive_backup_archivedon_idx",
        .lit s!"DROP TYPE {schema}.job_state",
        .lit s!"CREATE TYPE {schema}.job_state AS ENUM ('created','retry','active','completed','cancelled','failed')",
        .lit s!"ALTER TABLE {schema}.job ALTER COLUMN state TYPE {schema}.job_state USING state::{schema}.job_state",
        .lit s!"ALTER TABLE {schema}.job ALTER COLUMN state SET DEFAULT 'created'::{schema}.job_state",
        .lit s!"DELETE FROM {schema}.job WHERE name LIKE '__pgboss__%'",
        .lit s!"ALTER TABLE {schema}.job RENAME TO job_default",
        .lit s!"ALTER TABLE {schema}.job_default DROP CONSTRAINT job_pkey",
        .lit (s!"CREATE TABLE {schema}.job (\n" ++
          "          id uuid not null default gen_random_uuid(),\n" ++
          "          name text not null,\n" ++
          "          priority integer not null default(0),\n" ++
          "          data jsonb,\n" ++
          s!"          state {schema}.job_state not null default('created'),\n" ++
          "          retryLimit integer not null default(0),\n" ++
          "          retryCount integer not null default(0),\n" ++
          "          retryDelay integer not null default(0),\n" ++
          "          retryBackoff boolean not null default false,\n" ++
          "          startAfter timestamp with time zone not null default now(),\n" ++
          "          startedOn timestamp with time zone,\n" ++
          "          singletonKey text,\n" ++
          "          singletonOn timestamp without time zone,\n" ++
          "          expireIn interval not null default interval '15 minutes',\n" ++
          "          createdOn timestamp with time zone not null default now(),\n" ++
          "          completedOn timestamp with time zone,\n" ++
          "          keepUntil timestamp with time zone NOT NULL default now() + interval '14 days',\n" ++
          "          output jsonb,\n" ++
          "          deadletter text,\n" ++
          "          policy text,\n" ++
          "          CONSTRAINT job_pkey PRIMARY KEY (name, id)\n" ++
          "        ) PARTITION BY RANGE (name)"),
        .lit s!"ALTER TABLE {schema}.job ATTACH PARTITION {schema}.job_default DEFAULT",
        .lit s!"CREATE TABLE {schema}.archive (LIKE {schema}.job)",
        .lit s!"ALTER TABLE {schema}.archive ADD CONSTRAINT archive_pkey PRIMARY KEY (name, id)",
        .lit s!"ALTER TABLE {schema}.archive ADD archivedOn timestamptz NOT NULL DEFAULT now()",
        .lit s!"CREATE INDEX archive_archivedon_idx ON {schema}.archive(archivedon)",
        .lit s!"CREATE INDEX archive_name_idx ON {schema}.archive(name)",
        .lit s!"CREATE INDEX job_fetch ON {schema}.job (name text_pattern_ops, startAfter) INCLUDE (priority, createdOn) WHERE state < 'active'",
        .taggedTemplate
          (.lit s!"CREATE INDEX job_name ON {schema}.job (name text_pattern_ops)")
          s!"CREATE UNIQUE INDEX job_policy_short ON {schema}.job (name) WHERE state = 'created' AND policy = 'short'",
        .lit s!"CREATE UNIQUE INDEX job_policy_singleton ON {schema}.job (name) WHERE state = 'active' AND policy = 'singleton'",
        .lit s!"CREATE UNIQUE INDEX job_policy_stately ON {schema}.job (name, state) WHERE state <= 'active' AND policy = 'stately'",
        .lit s!"CREATE UNIQUE INDEX job_throttle_key ON {schema}.job (name, singletonKey) WHERE state <= 'completed' AND singletonOn IS NULL",
        .lit s!"CREATE UNIQUE INDEX job_throttle_on ON {schema}.job (name, singletonOn, COALESCE(singletonKey, '')) WHERE state <= 'completed' AND singletonOn IS NOT NULL",
        .lit s!"ALTER TABLE {schema}.version ADD COLUMN monitored_on timestamp with time zone",
        .lit (s!"CREATE TABLE {schema}.queue (\n" ++
          "          name text primary key,\n" ++
          "          policy text,\n" ++
          "          retry_limit int,\n" ++
          "          retry_delay int,\n" ++
          "          retry_backoff bool,\n" ++
          "          expire_seconds int,\n" ++
          "          retention_minutes int,\n" ++
          "          dead_letter text,\n" ++
          "          created_on timestamp with time zone not null default now()\n" ++
          "        )")
      ]
      uninstall := [
        .lit s!"DROP INDEX {schema}.job_policy_stately",
        .lit s!"DROP INDEX {schema}.job_policy_short",
        .lit s!"DROP INDEX {schema}.job_policy_singleton",
        .lit s!"DROP INDEX {schema}.job_throttle_on",
        .lit s!"DROP INDEX {schema}.job_throttle_key",
        .lit s!"DROP INDEX {schema}.job_fetch",
        .lit s!"DROP INDEX {schema}.job_name",
        .lit s!"ALTER TABLE {schema}.job DETACH PARTITION {schema}.job_default",
        .lit s!"DROP TABLE {schema}.job",
        .lit s!"ALTER TABLE {schema}.job_default RENAME TO job",
        .lit s!"DROP TABLE IF EXISTS {schema}.archive_backup",
        .lit s!"DROP INDEX {schema}.archive_archivedon_idx",
        .lit s!"DROP INDEX {schema}.archive_name_idx",
        .lit s!"ALTER TABLE {schema}.job DROP COLUMN deadletter",
        .lit s!"ALTER TABLE {schema}.job DROP COLUMN policy",
        .lit s!"ALTER TABLE {schema}.job ALTER COLUMN state TYPE text",
        .lit s!"ALTER TABLE {schema}.job ALTER COLUMN state DROP DEFAULT",
        .lit s!"ALTER TABLE {schema}.archive ALTER COLUMN state TYPE text",
        .lit s!"DROP TYPE {schema}.job_state",
        .lit s!"CREATE TYPE {schema}.job_state AS ENUM ('created','retry','active','completed','expired','cancelled','failed')",
        .lit s!"ALTER TABLE {schema}.job ALTER COLUMN state TYPE {schema}.job_state USING state::{schema}.job_state",
        .lit s!"ALTER TABLE {schema}.job ALTER COLUMN state SET DEFAULT 'created'::{schema}.job_state",
        .lit s!"ALTER TABLE {schema}.job ADD COLUMN on_complete bool NOT NULL DEFAULT false",
        .lit s!"ALTER TABLE {schema}.archive ALTER COLUMN state TYPE {schema}.job_state USING state::{schema}.job_state",
        .lit s!"ALTER TABLE {schema}.archive DROP COLUMN policy",
        .lit s!"ALTER TABLE {schema}.archive DROP CONSTRAINT archive_pkey",
        .lit s!"CREATE INDEX job_fetch ON {schema}.job (name text_pattern_ops, startAfter) WHERE state < 'active'",
        .lit s!"CREATE UNIQUE INDEX job_singletonOn ON {schema}.job (name, singletonOn) WHERE state < 'expired' AND singletonKey IS NULL",
        .lit s!"CREATE UNIQUE INDEX job_singletonKeyOn ON {schema}.job (name, singletonOn, singletonKey) WHERE state < 'expired'",
        .lit s!"CREATE UNIQUE INDEX job_singletonKey ON {schema}.job (name, singletonKey) WHERE state < 'completed' AND singletonOn IS NULL AND NOT singletonKey LIKE '\\_\\_pgboss\\_\\_singleton\\_queue%'",
        .lit s!"CREATE UNIQUE INDEX job_singleton_queue ON {schema}.job (name, singletonKey) WHERE state < 'active' AND singletonOn IS NULL AND singletonKey LIKE '\\_\\_pgboss\\_\\_singleton\\_queue%'",
        .lit s!"DROP TABLE {schema}.queue",
        .lit s!"ALTER TABLE {schema}.version DROP COLUMN monitored_on"
      ] },
    { release := "7.4.0"
      version := 20
      previous := 19
      install := [
        .lit s!"DROP INDEX {schema}.job_singletonKey",
        .lit s!"DROP INDEX {schema}.job_singleton_queue",
        .lit s!"CREATE UNIQUE INDEX job_singletonKey ON {schema}.job (name, singletonKey) WHERE state < 'completed' AND singletonOn IS NULL AND NOT singletonKey LIKE '\\_\\_pgboss\\_\\_singleton\\_queue%'",
        .lit s!"CREATE UNIQUE INDEX job_singleton_queue ON {schema}.job (name, singletonKey) WHERE state < 'active' AND singletonOn IS NULL AND singletonKey LIKE '\\_\\_pgboss\\_\\_singleton\\_queue%'"
      ]
      uninstall := [
        .lit s!"DROP INDEX {schema}.job_singletonKey",
        .lit s!"DROP INDEX {schema}.job_singleton_queue",
        .lit s!"CREATE UNIQUE INDEX job_singletonKey ON {schema}.job (name, singletonKey) WHERE state < 'completed' AND singletonOn IS NULL AND NOT singletonKey = '__pgboss__singleton_queue'",
        .lit s!"CREATE UNIQUE INDEX job_singleton_queue ON {schema}.job (name, singletonKey) WHERE state < 'active' AND singletonOn IS NULL AND singletonKey = '__pgboss__singleton_queue'"
      ] },
    { release := "7.0.0"
      version := 19
      previous := 18
      install := [
        .lit (s!"CREATE TABLE {schema}.subscription (\n" ++
          "          event text not null,\n" ++
          "          name text not null,\n" ++
          "          created_on timestamp with time zone not null default now(),\n" ++
          "          updated_on timestamp with time zone not null default now(),\n" ++
          "          PRIMARY KEY(event, name)\n" ++
          "        )")
      ]
      uninstall := [
        .lit s!"DROP TABLE {schema}.subscription"
      ] } ]

/-- Calling migrationStore.js `getAll(schema)`: the array literal's elements
evaluate in order (per migration: `install` then `uninstall`); the first
throw propagates out of `getAll`. -/
def getAll (schema : String) : Except String (List Migration) :=
  (getAllRaw schema).mapM fun rm => do
    let install ← rm.install.mapM evalJsExpr
    let uninstall ← rm.uninstall.mapM evalJsExpr
    pure { release := rm.release, version := rm.version, previous := rm.previous
           install := install, uninstall := uninstall }

/-- migrationStore.js `rollback(schema, version, migrations)`: the migrations
default to `getAll(schema)` when not passed; find the migration with
`version === version`, `assert` it exists (an `AssertionError` with
"Version ... not found." otherwise) and flatten its `uninstall` targeting
its `previous`. -/
def rollback (schema : String) (version : Int)
    (migrations : Option (List Migration)) : Except String Plan := do
  let ms ← match migrations with
    | some ms => pure ms
    | none => getAll schema
  match ms.find? (fun i => i.version == version) with
  | some result => pure (flatten schema result.uninstall result.previous)
  | none => .error ("Version " ++ toString version ++ " not found.")

/-- migrationStore.js `next(schema, version, migrations)`: find the migration
with `previous === version`, `assert` it exists and flatten its `install`
targeting its `version`. -/
def next (schema : String) (version : Int)
    (migrations : Option (List Migration)) : Except String Plan := do
  let ms ← match migrations with
    | some ms => pure ms
    | none => getAll schema
  match ms.find? (fun i => i.previous == version) with
  | some result => pure (flatten schema result.install result.version)
  | none => .error ("Version " ++ toString version ++ " not found.")

/-- The JavaScript `migrations.sort((a, b) => a.version - b.version)`: a
stable ascending sort by `version`, modelled by insertion sort (stable, so
it computes the same list). -/
def sortByVersion (ms : List Migration) : List Migration :=
  List.insertionSort (fun a b => a.version ≤ b.version) ms

/-- migrationStore.js `migrate(value, version, migrations)` with a string
`value` (the schema; a config object only contributes its schema and an
extra argument `getAll` ignores): filter the migrations with
`previous >= version`, sort ascending by `version`, reduce to the
concatenation of their `install` arrays and the last (highest) `version`,
`assert` the concatenation is non-empty ("Version ... not found."
otherwise) and flatten it targeting that version. -/
def migrate (schema : String) (version : Int)
    (migrations : Option (List Migration)) : Except String Plan := do
  let ms ← match migrations with
    | some ms => pure ms
    | none => getAll schema
  let result := (sortByVersion (ms.filter (fun i => version ≤ i.previous))).foldl
    (fun acc i => (acc.1 ++ i.install, i.version)) (([] : List String), version)
  if result.1.length > 0 then
    pure (flatten schema result.1 result.2)
  else
    .error ("Version " ++ toString version ++ " not found.")

end MigrationStore

/-! ## Theorems settling the claims -/

/-- C7 (counterexample): the claim reads "if data is an object, it is passed
through unchanged". A JavaScript array is an object (`typeof [] === 'object'`),
yet `mapCompletionDataArg` wraps it: on the array `[]` the result is
`{value: []}`, not the array itself. -/
theorem mapCompletionDataArg_wraps_arrays :
    jsTypeof (JsValue.arr []) = "object" ∧
    mapCompletionDataArg (JsValue.arr []) = JsValue.obj [("value", JsValue.arr [])] ∧
    mapCompletionDataArg (JsValue.arr []) ≠ JsValue.arr [] :=
  ⟨rfl, rfl, fun h => JsValue.noConfusion h⟩

/-- C7 (amended): `complete`'s data argument is stored as null when it is
null, undefined or callable; a non-array object is passed through unchanged
(after the error-safe serialization, the identity on plain data); an array,
like any other remaining value v, is wrapped as an object with the single
field `value` holding v. -/
theorem mapCompletionDataArg_correct (data : JsValue) :
    mapCompletionDataArg data = completionOutputSpec data := by
  cases data <;> rfl

/-- C10: `notifyWorker(workerId)` with an id absent from the worker registry
returns without raising (it is a total function) and leaves the registry —
and with it every registered worker's state — unchanged. -/
theorem notifyWorker_absent_id_noop (workers : Registry) (workerId : String)
    (h : workersHas workers workerId = false) :
    notifyWorker workers workerId = workers := by
  simp [notifyWorker, h]

/-- C10 (witness): a concrete registry holding only worker "a" is untouched
by `notifyWorker "b"`. -/
theorem notifyWorker_absent_id_noop_witness :
    notifyWorker [("a", { id := "a", name := "q" })] "b" =
      [("a", { id := "a", name := "q" })] :=
  notifyWorker_absent_id_noop [("a", { id := "a", name := "q" })] "b" rfl

/-- C8 (counterexample): the claim reads "a DB error is never propagated to
the caller of fetch". On a queue-cache miss, `fetch` first resolves the queue
through `getQueueCache`, whose `getQueue` DB call sits outside the
try/catch: with an empty cache and that call throwing "ECONNRESET", `fetch`
propagates the error instead of returning the empty batch. -/
theorem fetch_propagates_queue_lookup_error :
    fetch "q" ⟨none, .error "ECONNRESET"⟩ (.ok []) = .error "ECONNRESET" ∧
    fetch "q" ⟨none, .error "ECONNRESET"⟩ (.ok []) ≠ .ok [] :=
  ⟨rfl, fun h => Except.noConfusion h⟩

/-- C8 (amended): once the queue is resolved (from the cache or a successful
`getQueue` call), a throw from the DB call executing the fetch query is
swallowed and `fetch` returns the empty batch; on success it returns the
fetched rows. A DB error from the queue-metadata lookup on a cache miss
still propagates. -/
theorem fetch_swallows_fetch_query_error (name table : String) (env : QueueEnv)
    (e : String) (rows : List Job) (h : getQueueCache name env = .ok table) :
    fetch name env (.error e) = .ok [] ∧ fetch name env (.ok rows) = .ok rows := by
  simp [fetch, h]

/-- C8 (witness): with the queue cached under table "t", a fetch whose query
throws "ECONNRESET" returns the empty batch, and one whose query returns one
row returns it. -/
theorem fetch_swallows_fetch_query_error_witness :
    fetch "q" ⟨some "t", .ok none⟩ (.error "ECONNRESET") = .ok [] ∧
    fetch "q" ⟨some "t", .ok none⟩ (.ok [{ id := "j1", expireInSeconds := 5 }]) =
      .ok [{ id := "j1", expireInSeconds := 5 }] :=
  fetch_swallows_fetch_query_error "q" "t" ⟨some "t", .ok none⟩ "ECONNRESET"
    [{ id := "j1", expireInSeconds := 5 }] rfl

/-- C9 (counterexample): the claim reads "every subsequent send operation
fails with a stopped error". `Manager.send` never consults the `stopped`
flag: with the manager stopped, a send against a cached queue whose insert
returns one row succeeds and returns the job id — it does not fail at all. -/
theorem send_succeeds_after_stop :
    (∃ calls, send ⟨true⟩ "q" .null {} ⟨some "t", .ok none⟩ [some "j1"] 0 0 =
      .ok (calls, some "j1")) ∧
    ∀ e, send ⟨true⟩ "q" .null {} ⟨some "t", .ok none⟩ [some "j1"] 0 0 ≠ .error e :=
  ⟨⟨[mkInsertCall "t" "q" .null {} 0], rfl⟩, fun _ h => Except.noConfusion h⟩

/-- C9 (amended): after `stop()` sets the stopped flag, worker registration
(`work`, via `watch`) fails with "Workers are disabled. pg-boss is stopped";
`send`, however, has no stopped check: its result is the same whether the
manager is stopped or not. -/
theorem stop_blocks_work_not_send :
    (∀ (st : ManagerState) (workers : Registry) (name id : String),
        st.stopped = true →
        work st workers name id = .error "Workers are disabled. pg-boss is stopped") ∧
    (∀ (name : String) (data : JsValue) (options : JobOptions) (env : QueueEnv)
        (db : List (Option String)) (now clockSkew : Int),
        send ⟨true⟩ name data options env db now clockSkew =
          send ⟨false⟩ name data options env db now clockSkew) :=
  ⟨fun _st _workers _name _id h => by simp [work, watch, h],
   fun _name _data _options _env _db _now _clockSkew => rfl⟩

/-- C3: `sendThrottled` makes exactly one insert attempt; when it returns
zero rows (a unique-index collision within the current time bucket) the call
returns null without a second attempt and without raising, and when it
returns one row the call returns that row's id. -/
theorem sendThrottled_absorbs_collision (name table : String) (data : JsValue)
    (options : JobOptions) (seconds : Int) (key : Option String) (env : QueueEnv)
    (r : Option String) (now clockSkew : Int)
    (h : getQueueCache name env = .ok table) :
    sendThrottled name data options seconds key env [r] now clockSkew =
      .ok ([mkInsertCall table name data
        { options with
          singletonSeconds := some seconds
          singletonNextSlot := false
          singletonKey := key } 0], r) := by
  cases r <;> simp [sendThrottled, createJob, h]

/-- C3 (witness): a throttled send of 60 seconds under key "k" whose insert
collides (zero rows) returns null after its single attempt. -/
theorem sendThrottled_absorbs_collision_witness :
    sendThrottled "q" .null {} 60 (some "k") ⟨some "t", .ok none⟩ [none] 0 0 =
      .ok ([mkInsertCall "t" "q" .null
        { singletonSeconds := some 60
          singletonNextSlot := false
          singletonKey := some "k" } 0], none) :=
  sendThrottled_absorbs_collision "q" "t" .null {} 60 (some "k")
    ⟨some "t", .ok none⟩ none 0 0 rfl

/-- C6 (code bug): `getAll` does not evaluate without raising. The template
literal `CREATE INDEX job_name …` in version 21's install array (line 136)
has no comma after it, so JavaScript parses it together with the following
`CREATE UNIQUE INDEX job_policy_short …` literal as a tagged template — a
string applied as a function — and calling `getAll` throws a TypeError; the
two statements never appear as distinct entries. -/
theorem getAll_throws_TypeError :
    MigrationStore.getAll "pgboss" = .error
      "TypeError: \"CREATE INDEX job_name ON pgboss.job (name text_pattern_ops)\" is not a function" := by
  rfl

/-- C1 (counterexample): the claim reads "a timer whose deadline is
max(expireInSeconds across the batch) seconds". The code clamps the deadline
below at 1 second (`Math.max(1, seconds)`): on a batch whose only job has
`expireInSeconds = 0` the claimed deadline is 0 ms, so a handler taking
500 ms should lose the race and the batch be failed with "handler execution
exceeded 0ms" — but the code's timer fires at 1000 ms and the batch is
completed with the handler's return value. -/
theorem onFetch_unclamped_deadline_counterexample :
    ¬ (∀ (jobs : List Job) (run : HandlerRun), jobs ≠ [] →
        maxExpiration jobs * 1000 < run.duration →
        onFetch jobs run false = .ok (some (.fail (jobs.map (·.id))
          ("handler execution exceeded " ++ toString (maxExpiration jobs * 1000) ++ "ms")))) := by
  intro hclaim
  have h := hclaim [{ id := "a", expireInSeconds := 0 }] ⟨500, .ok .null⟩
    (by simp) (by simp [maxExpiration])
  have hcode : onFetch [{ id := "a", expireInSeconds := 0 }] ⟨500, .ok .null⟩ false =
      .ok (some (.complete ["a"] (some .null))) := rfl
  rw [hcode] at h
  simp at h

/-- C1 (amended): for every non-empty fetched batch, the worker races the
handler against a timer whose deadline is `max(1, max(expireInSeconds across
the batch))` seconds (the batch maximum clamped below at one second). If the
timer wins, the batch is failed with "handler execution exceeded Nms", N the
deadline in milliseconds; if the handler settles within the deadline, the
batch is completed with the handler's return value as the data argument
when the batch size is 1 and undefined otherwise (a handler throw is passed
to fail). -/
theorem onFetch_deadline_race (jobs : List Job) (run : HandlerRun)
    (h : jobs ≠ []) :
    ((max 1 (maxExpiration jobs)) * 1000 < run.duration →
      onFetch jobs run false = .ok (some (.fail (jobs.map (·.id))
        ("handler execution exceeded " ++
          toString ((max 1 (maxExpiration jobs)) * 1000) ++ "ms")))) ∧
    (run.duration ≤ (max 1 (maxExpiration jobs)) * 1000 →
      onFetch jobs run false = .ok (some (match run.outcome with
        | .ok result => .complete (jobs.map (·.id))
            (if jobs.length = 1 then some result else none)
        | .error err => .fail (jobs.map (·.id)) err))) := by
  have hlen : ¬(jobs.length = 0) := by simpa [List.length_eq_zero] using h
  constructor
  · intro hd
    simp [onFetch, hlen, resolveWithinSeconds, hd]
  · intro hd
    cases hout : run.outcome <;>
      simp [onFetch, hlen, resolveWithinSeconds, not_lt.mpr hd, hout]

/-- C1 (witness): a singleton batch with a 2-second expiration whose handler
returns "done" within 1000 ms is completed with that return value as data. -/
theorem onFetch_deadline_race_witness :
    onFetch [{ id := "a", expireInSeconds := 2 }] ⟨1000, .ok (.str "done")⟩ false =
      .ok (some (.complete ["a"] (some (.str "done")))) :=
  (onFetch_deadline_race [{ id := "a", expireInSeconds := 2 }]
    ⟨1000, .ok (.str "done")⟩ (by simp)).2 (by norm_num [maxExpiration])

/-- Arithmetic of the debounce retry: for a bucket width of at least one
second, the code's `getDebounceStartAfter` equals the seconds remaining
until the next time bucket (computed from the clock-skew-adjusted now,
rounded up), plus one exactly when the width exceeds one second; and that
remaining-seconds value is at least 1. -/
theorem getDebounceStartAfter_spec (s clockOffset now : Int) (hs : 1 ≤ s) :
    getDebounceStartAfter s clockOffset now =
      specSecondsUntilNextBucket s clockOffset now + (if 1 < s then 1 else 0) ∧
    1 ≤ specSecondsUntilNextBucket s clockOffset now := by
  have hIpos : (0 : Int) < s * 1000 := by omega
  have hIle : (0 : Int) ≤ s * 1000 := le_of_lt hIpos
  have h1 : ∀ x : Int, Int.fdiv x (s * 1000) = x / (s * 1000) :=
    fun x => Int.fdiv_eq_ediv x hIle
  have h2 : ∀ x : Int, Int.fdiv x 1000 = x / 1000 :=
    fun x => Int.fdiv_eq_ediv x (by omega)
  simp only [getDebounceStartAfter, specSecondsUntilNextBucket, h1, h2]
  set a := now + clockOffset with ha
  have hmod : a - a / (s * 1000) * (s * 1000) = a % (s * 1000) := by
    rw [Int.emod_def]; ring
  have hspec : (a / (s * 1000) + 1) * (s * 1000) - a + 999 =
      s * 1000 - a % (s * 1000) + 999 := by
    rw [← hmod]; ring
  rw [hmod, hspec]
  have hd0 : 0 ≤ a % (s * 1000) := Int.emod_nonneg a (by omega)
  have hdlt : a % (s * 1000) < s * 1000 := Int.emod_lt_of_pos a hIpos
  constructor
  · split_ifs <;> omega
  · omega

/-- C2: a debounced send whose first insert returns zero rows retries
exactly once. The retry's insert carries `singletonOffset = seconds` and
`startAfter` equal to the seconds remaining until the next time bucket
(computed from the clock-skew-adjusted now, at least 1, incremented by one
when `seconds > 1`), and the call returns the second attempt's id, or null
when the second attempt also returns zero rows. -/
theorem sendDebounced_collision_retry (name table : String) (data : JsValue)
    (options : JobOptions) (seconds : Int) (key : Option String) (env : QueueEnv)
    (second : Option String) (now clockSkew : Int)
    (hs : 1 ≤ seconds) (h : getQueueCache name env = .ok table) :
    ∃ c1 c2 : InsertCall,
      sendDebounced name data options seconds key env [none, second] now clockSkew =
        .ok ([c1, c2], second) ∧
      c2.singletonOffset = seconds ∧
      c2.startAfter = some (specSecondsUntilNextBucket seconds clockSkew now +
        (if 1 < seconds then 1 else 0)) ∧
      1 ≤ specSecondsUntilNextBucket seconds clockSkew now ∧
      c1.singletonOffset = 0 ∧
      c1.startAfter = options.startAfter := by
  obtain ⟨heq, hge⟩ := getDebounceStartAfter_spec seconds clockSkew now hs
  refine ⟨mkInsertCall table name data
      { options with
        singletonSeconds := some seconds
        singletonNextSlot := true
        singletonKey := key } 0,
    mkInsertCall table name data
      { options with
        singletonSeconds := some seconds
        singletonNextSlot := false
        singletonKey := key
        startAfter := some (getDebounceStartAfter seconds clockSkew now) } seconds,
    ?_, rfl, ?_, hge, rfl, rfl⟩
  · cases second <;> simp [sendDebounced, createJob, h]
  · simp [mkInsertCall, heq]

/-- C2 (witness): a debounced send of 10 seconds under key "k", fired at
now = 5000 ms with zero clock skew, collides, retries once with
`singletonOffset = 10` and `startAfter = 6` (5 whole seconds remain to the
10-second boundary, plus the over-one-second increment), and returns the
second attempt's id "j2". -/
theorem sendDebounced_collision_retry_witness :
    ∃ c1 c2 : InsertCall,
      sendDebounced "q" .null {} 10 (some "k") ⟨some "t", .ok none⟩
          [none, some "j2"] 5000 0 =
        .ok ([c1, c2], some "j2") ∧
      c2.singletonOffset = 10 ∧
      c2.startAfter = some (specSecondsUntilNextBucket 10 0 5000 +
        (if 1 < (10 : Int) then 1 else 0)) ∧
      1 ≤ specSecondsUntilNextBucket 10 0 5000 ∧
      c1.singletonOffset = 0 ∧
      c1.startAfter = ({} : JobOptions).startAfter :=
  sendDebounced_collision_retry "q" "t" .null {} 10 (some "k")
    ⟨some "t", .ok none⟩ (some "j2") 5000 0 (by norm_num) rfl

namespace MigrationStore

instance : IsTotal Migration (fun a b => a.version ≤ b.version) :=
  ⟨fun a b => Int.le_total a.version b.version⟩

instance : IsTrans Migration (fun a b => a.version ≤ b.version) :=
  ⟨fun _ _ _ h1 h2 => le_trans h1 h2⟩

/-- The stable sort is a permutation of its input. -/
theorem sortByVersion_perm (ms : List Migration) : (sortByVersion ms).Perm ms :=
  List.perm_insertionSort _ ms

/-- The stable sort is ascending by version. -/
theorem sortByVersion_sorted (ms : List Migration) :
    List.Sorted (fun a b => a.version ≤ b.version) (sortByVersion ms) :=
  List.sorted_insertionSort _ ms

/-- The first component of `migrate`'s reduce is the accumulator followed by
the concatenation of the `install` arrays in list order. -/
theorem foldl_install_concat (l : List Migration) (a : List String) (v : Int) :
    (l.foldl (fun acc i => (acc.1 ++ i.install, i.version)) (a, v)).1 =
      a ++ (l.map (·.install)).flatten := by
  induction l generalizing a v with
  | nil => simp
  | cons m t ih => simp [List.foldl, ih, List.append_assoc]

/-- On a non-empty version-sorted list, the second component of `migrate`'s
reduce is the version of one of its elements, and an upper bound of them
all: the highest version of the list. -/
theorem foldl_targets_max (l : List Migration) :
    List.Sorted (fun a b => a.version ≤ b.version) l →
    ∀ (a : List String) (v : Int), l ≠ [] →
      ∃ m, m ∈ l ∧
        (l.foldl (fun acc i => (acc.1 ++ i.install, i.version)) (a, v)).2 = m.version ∧
        ∀ x ∈ l, x.version ≤ m.version := by
  induction l with
  | nil => intro _ a v hne; exact absurd rfl hne
  | cons m t ih =>
    intro hl a v _
    rw [List.sorted_cons] at hl
    obtain ⟨hm, ht⟩ := hl
    by_cases htn : t = []
    · subst htn
      exact ⟨m, by simp, by simp [List.foldl], by simp⟩
    · obtain ⟨mt, hmem, heq, hge⟩ := ih ht (a ++ m.install) m.version htn
      refine ⟨mt, List.mem_cons_of_mem m hmem, by simpa [List.foldl] using heq, ?_⟩
      intro x hx
      rcases List.mem_cons.mp hx with hx | hx
      · exact hx ▸ hm mt hmem
      · exact hge x hx

/-- Unfolding of `next` on an explicit migration list. -/
theorem next_some (schema : String) (version : Int) (ms : List Migration) :
    next schema version (some ms) =
      match ms.find? (fun i => i.previous == version) with
      | some result => pure (flatten schema result.install result.version)
      | none => .error ("Version " ++ toString version ++ " not found.") := rfl

/-- Unfolding of `rollback` on an explicit migration list. -/
theorem rollback_some (schema : String) (version : Int) (ms : List Migration) :
    rollback schema version (some ms) =
      match ms.find? (fun i => i.version == version) with
      | some result => pure (flatten schema result.uninstall result.previous)
      | none => .error ("Version " ++ toString version ++ " not found.") := rfl

/-- Unfolding of `migrate` on an explicit migration list. -/
theorem migrate_some (schema : String) (version : Int) (ms : List Migration) :
    migrate schema version (some ms) =
      (let result := (sortByVersion (ms.filter (fun i => version ≤ i.previous))).foldl
        (fun acc i => (acc.1 ++ i.install, i.version)) (([] : List String), version)
      if result.1.length > 0 then
        pure (flatten schema result.1 result.2)
      else
        .error ("Version " ++ toString version ++ " not found.")) := rfl

/-- C4 (counterexample): the claim reads that every plan opens with an
assertion that the stored schema version equals the source version of the
hop. For `next` from version 1 over a chain holding the migration 1 → 2, the
plan's first statement is the version assertion about 2, the hop's target,
not about the source 1. -/
theorem next_asserts_target_not_source :
    ¬ (∀ (schema : String) (version : Int) (ms : List Migration) (plan : Plan),
        next schema version (some ms) = .ok plan →
        ∃ rest, plan.statements = Stmt.assertVersion schema version :: rest) := by
  intro hclaim
  obtain ⟨rest, hrest⟩ := hclaim "s" 1
    [{ release := "r", version := 2, previous := 1, install := ["S"], uninstall := [] }]
    (flatten "s" ["S"] 2) rfl
  simp [flatten] at hrest

/-- C4 (amended): every plan produced by `next`, `rollback` or `migrate`
consists of the migration statements prepended with the version assertion
and appended with the set-version statement, both referencing the hop's
TARGET version (the version being migrated to), the whole sequence wrapped
for execution under the advisory lock derived from the schema name. -/
theorem migration_plans_wrapped :
    (∀ (schema : String) (version : Int) (ms : List Migration) (plan : Plan),
        next schema version (some ms) = .ok plan →
        ∃ m, m ∈ ms ∧ m.previous = version ∧
          plan = { schema := schema
                   statements := Stmt.assertVersion schema m.version ::
                     m.install.map Stmt.sql ++ [Stmt.setVersion schema m.version] }) ∧
    (∀ (schema : String) (version : Int) (ms : List Migration) (plan : Plan),
        rollback schema version (some ms) = .ok plan →
        ∃ m, m ∈ ms ∧ m.version = version ∧
          plan = { schema := schema
                   statements := Stmt.assertVersion schema m.previous ::
                     m.uninstall.map Stmt.sql ++ [Stmt.setVersion schema m.previous] }) ∧
    (∀ (schema : String) (version : Int) (ms : List Migration) (plan : Plan),
        migrate schema version (some ms) = .ok plan →
        ∃ (body : List String) (target : Int),
          plan = { schema := schema
                   statements := Stmt.assertVersion schema target ::
                     body.map Stmt.sql ++ [Stmt.setVersion schema target] }) := by
  refine ⟨?_, ?_, ?_⟩
  · intro schema version ms plan h
    rw [next_some] at h
    cases hfind : ms.find? (fun i => i.previous == version) with
    | none => rw [hfind] at h; exact absurd h (by simp)
    | some m =>
      rw [hfind] at h
      have hm := List.mem_of_find?_eq_some hfind
      have hp := List.find?_some hfind
      cases h
      exact ⟨m, hm, by simpa using hp, rfl⟩
  · intro schema version ms plan h
    rw [rollback_some] at h
    cases hfind : ms.find? (fun i => i.version == version) with
    | none => rw [hfind] at h; exact absurd h (by simp)
    | some m =>
      rw [hfind] at h
      have hm := List.mem_of_find?_eq_some hfind
      have hp := List.find?_some hfind
      cases h
      exact ⟨m, hm, by simpa using hp, rfl⟩
  · intro schema version ms plan h
    rw [migrate_some] at h
    simp only at h
    split at h
    · cases h
      exact ⟨_, _, rfl⟩
    · exact absurd h (by simp)

/-- C5: `migrate(schema, fromVersion)` selects exactly the migrations whose
`previous` is at least `fromVersion`, sorts them ascending by `version`
(the sorted list is an ascending permutation of the selection),
concatenates their install statements in that order, and targets the
highest selected version; when the concatenation is empty — in particular
when no migration qualifies — it fails with the not-found error instead of
producing an empty plan. -/
theorem migrate_selects_sorts_targets (schema : String) (version : Int)
    (ms : List Migration) :
    (∀ m, m ∈ ms.filter (fun i => version ≤ i.previous) ↔
      m ∈ ms ∧ version ≤ m.previous) ∧
    (sortByVersion (ms.filter (fun i => version ≤ i.previous))).Perm
      (ms.filter (fun i => version ≤ i.previous)) ∧
    List.Sorted (fun a b => a.version ≤ b.version)
      (sortByVersion (ms.filter (fun i => version ≤ i.previous))) ∧
    (((sortByVersion (ms.filter (fun i => version ≤ i.previous))).map
        (·.install)).flatten = [] →
      migrate schema version (some ms) =
        .error ("Version " ++ toString version ++ " not found.")) ∧
    (∀ plan, migrate schema version (some ms) = .ok plan →
      ∃ target,
        plan = { schema := schema
                 statements := Stmt.assertVersion schema target ::
                   (((sortByVersion (ms.filter (fun i => version ≤ i.previous))).map
                     (·.install)).flatten).map Stmt.sql ++
                   [Stmt.setVersion schema target] } ∧
        (∃ m, m ∈ ms.filter (fun i => version ≤ i.previous) ∧ m.version = target) ∧
        ∀ m ∈ ms.filter (fun i => version ≤ i.previous), m.version ≤ target) := by
  have hfst := foldl_install_concat
    (sortByVersion (ms.filter (fun i => version ≤ i.previous))) [] version
  refine ⟨fun m => by simp [List.mem_filter], sortByVersion_perm _,
    sortByVersion_sorted _, ?_, ?_⟩
  · intro hj
    rw [migrate_some]
    simp only
    rw [if_neg]
    simp [hfst, hj]
  · intro plan h
    rw [migrate_some] at h
    simp only at h
    split at h
    case isTrue hlen =>
      cases h
      have hjoin := hfst
      simp only [List.nil_append] at hjoin
      have hne : sortByVersion (ms.filter (fun i => version ≤ i.previous)) ≠ [] := by
        intro hnil
        rw [hjoin] at hlen
        rw [hnil] at hlen
        simp at hlen
      obtain ⟨mt, hmem, heq, hge⟩ := foldl_targets_max _ (sortByVersion_sorted _)
        [] version hne
      refine ⟨mt.version, ?_, ?_, ?_⟩
      · rw [flatten, hjoin, heq]
      · exact ⟨mt, (sortByVersion_perm _).mem_iff.mp hmem, rfl⟩
      · intro m hm
        exact hge m ((sortByVersion_perm _).mem_iff.mpr hm)
    case isFalse =>
      exact absurd h (by simp)

end MigrationStore

end PgBoss
